import Mathlib

set_option maxHeartbeats 1000000

/-!
Shallow embedding of `src/ScrobbleCache.cpp` (liblastfm's per-user scrobble
cache): the validator `ScrobbleCachePrivate::isValid`, the store mutations
`ScrobbleCache::add` / `ScrobbleCache::remove`, and the persistence layer
`ScrobbleCachePrivate::read` / `ScrobbleCachePrivate::write`.

Time is modelled as an integer timeline (seconds since the Unix epoch).
File-system effects are made explicit: `write` produces an `FsOp` value and
the file system is a function from paths to `FileContent`.
-/

/-- Modelled from the spec: the external `lastfm::Track` entity (its field
model and serialization are outside this core). The cache only reads
`artist()` (possibly absent), `title()`, `duration()`, `timestamp()`
(possibly absent/invalid, here `none`) and the `isNull()` sentinel state.
Equality is value equality, matching `Track::operator==`. -/
structure Track where
  artist : Option String
  title : String
  duration : Int
  timestamp : Option Int
  isNull : Bool
deriving DecidableEq

/-- The `ScrobbleCachePrivate::Invalidity` enum, in source declaration order. -/
inductive Invalidity where
  | TooShort
  | ArtistNameMissing
  | TrackNameMissing
  | ArtistInvalid
  | NoTimestamp
  | FromTheFuture
  | FromTheDistantPast
deriving DecidableEq

/-- Modelled from the spec: `ScrobblePoint::kScrobbleMinLength` (the minimum
scrobble length, from `ScrobblePoint.h`, which is not part of this core); the
claims only compare durations against it, never use its exact value. -/
def kScrobbleMinLength : Int := 31

/-- The instant `QDateTime::fromString("2003-01-01", Qt::ISODate)` on the
integer timeline (2003-01-01 00:00:00 as epoch seconds). -/
def jan2003 : Int := 1041379200

/-- The blacklist of placeholder artist names from
`ScrobbleCachePrivate::isValid`. -/
def unknownArtists : List String :=
  ["unknown artist", "unknown", "[unknown]", "[unknown artist]"]

/-- Modelled from the spec: `QString::toLower` on the artist name (Qt is an
external collaborator), as per-character lowercasing of the string. -/
def qtToLower (s : String) : String := String.mk (s.data.map Char.toLower)

/-- Embedding of `ScrobbleCachePrivate::isValid`. The C++ returns `false` and
stores one `Invalidity` through the out-parameter at the first failing
`TEST`; here `some v` is that outcome and `none` means the track is valid.
`nowPlusOneMonth` is the value of
`QDateTime::currentDateTime().addMonths(1)` on the integer timeline. -/
def ScrobbleCachePrivate.isValid (nowPlusOneMonth : Int) (track : Track) :
    Option Invalidity :=
  if track.duration < kScrobbleMinLength then some Invalidity.TooShort
  else
    match track.timestamp with
    | none => some Invalidity.NoTimestamp
    | some ts =>
      if ts > nowPlusOneMonth then some Invalidity.FromTheFuture
      else if ts < jan2003 then some Invalidity.FromTheDistantPast
      else if track.artist.isNone then some Invalidity.ArtistNameMissing
      else if track.title = "" then some Invalidity.TrackNameMissing
      else if unknownArtists.contains (qtToLower (track.artist.getD "")) then
        some Invalidity.ArtistInvalid
      else none

/-- The persisted document built by `ScrobbleCachePrivate::write`: a
`submissions` root element with a `product` attribute (the application name),
a `version` attribute, and one `track` child element per stored track in list
order. Track (de)serialization is the external collaborator, so the children
are modelled as the tracks themselves. -/
structure SubmissionsDoc where
  product : String
  version : String
  items : List Track
deriving DecidableEq

/-- What a file-system path can hold, as seen by this core: no file, a file
whose content does not parse as a document, or a parsed document. -/
inductive FileContent where
  | absent
  | malformed
  | doc (d : SubmissionsDoc)
deriving DecidableEq

/-- A file-system effect emitted by `ScrobbleCachePrivate::write`: either
`QFile::remove(path)` or a wholesale rewrite of the file with a document. -/
inductive FsOp where
  | deleteFile (p : String)
  | writeFile (p : String) (d : SubmissionsDoc)
deriving DecidableEq

/-- Applying an emitted file-system effect to a file system. `QFile::remove`
on an absent file is modelled as the same total update (the code ignores its
return value; absence is not an error). -/
def applyFsOp (fs : String → FileContent) : FsOp → String → FileContent
  | FsOp.deleteFile p, q => if q = p then FileContent.absent else fs q
  | FsOp.writeFile p d, q => if q = p then FileContent.doc d else fs q

/-- The fields of `ScrobbleCachePrivate` (source names kept). -/
structure CacheState where
  m_username : String
  m_path : String
  m_tracks : List Track
deriving DecidableEq

/-- Embedding of `ScrobbleCachePrivate::write`: when `m_tracks` is empty the
file at `m_path` is deleted (absence tolerated); otherwise a document with
`product` = application name, `version` = "2" and one track child per stored
track, in list order, overwrites the file wholesale. -/
def ScrobbleCachePrivate.write (appName : String) (c : CacheState) : FsOp :=
  if c.m_tracks = [] then FsOp.deleteFile c.m_path
  else FsOp.writeFile c.m_path (SubmissionsDoc.mk appName "2" c.m_tracks)

/-- Embedding of `ScrobbleCachePrivate::read`: `m_tracks` is cleared, then
each `track` child of the document element is deserialized and appended in
document order. A missing file or unparseable content yields a null document
element, hence an empty list; no error is surfaced. -/
def ScrobbleCachePrivate.read : FileContent → List Track
  | FileContent.absent => []
  | FileContent.malformed => []
  | FileContent.doc d => d.items

/-- A per-candidate diagnostic surfaced by `ScrobbleCache::add`:
`qWarning() << invalidity` for a rejected track, or
`qDebug() << "Will not cache an empty track"` for a null track that passed
validation. -/
inductive Diag where
  | invalidTrack (v : Invalidity)
  | emptyTrack
deriving DecidableEq

/-- One iteration of the `foreach` loop in `ScrobbleCache::add`: the first
component accumulates `m_tracks`, the second the emitted diagnostics. -/
def ScrobbleCache.addStep (nowPlusOneMonth : Int)
    (st : List Track × List Diag) (track : Track) : List Track × List Diag :=
  match ScrobbleCachePrivate.isValid nowPlusOneMonth track with
  | some v => (st.1, st.2 ++ [Diag.invalidTrack v])
  | none =>
    if track.isNull then (st.1, st.2 ++ [Diag.emptyTrack])
    else (st.1 ++ [track], st.2)

/-- Result of `ScrobbleCache::add`: the new cache state, the diagnostics in
emission order, and the single file-system effect of the final `write()`. -/
structure AddResult where
  state : CacheState
  diags : List Diag
  saved : FsOp
deriving DecidableEq

/-- Embedding of `ScrobbleCache::add`: each candidate is validated in input
order; invalid candidates are skipped with their reason, null candidates that
passed validation are skipped with a distinct diagnostic, survivors are
appended to `m_tracks`; then `write()` runs exactly once. -/
def ScrobbleCache.add (nowPlusOneMonth : Int) (appName : String)
    (c : CacheState) (tracks : List Track) : AddResult :=
  let st := tracks.foldl (ScrobbleCache.addStep nowPlusOneMonth)
    (c.m_tracks, [])
  let c2 := CacheState.mk c.m_username c.m_path st.1
  AddResult.mk c2 st.2 (ScrobbleCachePrivate.write appName c2)

/-- Embedding of the `QMutableListIterator` loop in `ScrobbleCache::remove`.
For each stored track `t` (taken by `i.next()`), the inner loop walks all of
`toremove` and calls `i.remove()` at every value-equal target. `i.remove()`
erases the last item jumped over by `next()` and leaves the iterator with no
current item, so only the first matching target actually erases `t`; the
boolean accumulated by the fold records whether `t` has been erased. -/
def ScrobbleCache.removeScan (toremove : List Track) : List Track → List Track
  | [] => []
  | t :: rest =>
    let erased := toremove.foldl (fun b x => b || decide (x = t)) false
    if erased then ScrobbleCache.removeScan toremove rest
    else t :: ScrobbleCache.removeScan toremove rest

/-- Result of `ScrobbleCache::remove`: the new cache state, the single
file-system effect of `write()`, and the returned count. -/
structure RemoveResult where
  state : CacheState
  saved : FsOp
  ret : Nat
deriving DecidableEq

/-- Embedding of `ScrobbleCache::remove`: one scan over `m_tracks` removing
every stored track value-equal to some target, then `write()` exactly once,
then `return d->m_tracks.count()` — the number of tracks REMAINING. -/
def ScrobbleCache.remove (appName : String) (c : CacheState)
    (toremove : List Track) : RemoveResult :=
  let c2 := CacheState.mk c.m_username c.m_path
    (ScrobbleCache.removeScan toremove c.m_tracks)
  RemoveResult.mk c2 (ScrobbleCachePrivate.write appName c2)
    c2.m_tracks.length

/-- Modelled from the spec: `lastfm::dir::runtimeData().filePath(name)` (from
`misc.h`, outside this core) joins the runtime-data directory with a file
name. -/
def filePath (dir name : String) : String := dir ++ "/" ++ name

/-- Embedding of the constructor `ScrobbleCache::ScrobbleCache(username)`:
`Q_ASSERT(username.length())` makes construction with an empty username a
contract violation (modelled as `none`); otherwise the path is the
runtime-data directory joined with `<username>_subs_cache.xml` and the state
is read from the file at that path. -/
def ScrobbleCache.construct (runtimeDataDir : String)
    (fs : String → FileContent) (username : String) : Option CacheState :=
  if username.length = 0 then none
  else
    let p := filePath runtimeDataDir (username ++ "_subs_cache.xml")
    some (CacheState.mk username p (ScrobbleCachePrivate.read (fs p)))

/-- Accessor `ScrobbleCache::tracks`: the in-memory snapshot, no disk access. -/
def ScrobbleCache.tracks (c : CacheState) : List Track := c.m_tracks

/-- Accessor `ScrobbleCache::path`. -/
def ScrobbleCache.path (c : CacheState) : String := c.m_path

/-- Accessor `ScrobbleCache::username`. -/
def ScrobbleCache.username (c : CacheState) : String := c.m_username

/-- Modelled from the spec: the validator's checks listed in the claimed
precedence order, each paired with the reason it reports; the reported reason
is the first whose condition holds. Written from the spec's words, to be
compared with `ScrobbleCachePrivate.isValid`. -/
def specValidatorChecks (nowPlusOneMonth : Int) (track : Track) :
    List (Bool × Invalidity) :=
  [ (decide (track.duration < kScrobbleMinLength), Invalidity.TooShort),
    (track.timestamp.isNone, Invalidity.NoTimestamp),
    (decide (track.timestamp.getD jan2003 > nowPlusOneMonth),
      Invalidity.FromTheFuture),
    (decide (track.timestamp.getD jan2003 < jan2003),
      Invalidity.FromTheDistantPast),
    (track.artist.isNone, Invalidity.ArtistNameMissing),
    (decide (track.title = ""), Invalidity.TrackNameMissing),
    (unknownArtists.contains (qtToLower (track.artist.getD "")),
      Invalidity.ArtistInvalid) ]

/-- Modelled from the spec: first-match selection over the precedence list. -/
def specFirstFailure (nowPlusOneMonth : Int) (track : Track) :
    Option Invalidity :=
  ((specValidatorChecks nowPlusOneMonth track).find? (fun c => c.1)).map
    (fun c => c.2)

/-- The spec's characterization of which candidates `add` keeps: those that
pass the Validator and are not in the null sentinel state, in input order. -/
def addKeep (nowPlusOneMonth : Int) (cands : List Track) : List Track :=
  cands.filter (fun t =>
    (ScrobbleCachePrivate.isValid nowPlusOneMonth t).isNone && !t.isNull)

/-- The spec's characterization of the diagnostics `add` surfaces: one
rejection reason per invalid candidate and one empty-track note per null
candidate that passed validation, in input order. -/
def addDiags (nowPlusOneMonth : Int) (cands : List Track) : List Diag :=
  cands.filterMap (fun t =>
    match ScrobbleCachePrivate.isValid nowPlusOneMonth t with
    | some v => some (Diag.invalidTrack v)
    | none => if t.isNull then some Diag.emptyTrack else none)

/-- Sample valid track used in concrete scenarios. -/
def trackA : Track :=
  Track.mk (some "Abbey Road Band") "Come Together" 259 (some 1200000000) false

/-- Second sample valid track. -/
def trackB : Track :=
  Track.mk (some "Blur") "Song 2" 122 (some 1200000500) false

/-- Third sample valid track. -/
def trackC : Track :=
  Track.mk (some "Cake") "The Distance" 181 (some 1200001000) false

/-- Sample invalid track: its duration is below the minimum scrobble length. -/
def trackShort : Track :=
  Track.mk (some "Dio") "Intro" 5 (some 1200002000) false

/-- Sample value for `QDateTime::currentDateTime().addMonths(1)` used in
concrete scenarios (an instant after the sample tracks' timestamps). -/
def sampleNow : Int := 1300000000

/-! Helper lemmas shared by the claim theorems. -/

theorem foldl_or_decide (t : Track) (l : List Track) (b : Bool) :
    l.foldl (fun b x => b || decide (x = t)) b
      = (b || l.any (fun x => decide (x = t))) := by
  induction l generalizing b with
  | nil => simp
  | cons x xs ih => simp [List.foldl_cons, ih, List.any_cons, Bool.or_assoc]

theorem removeScan_eq_filter (toremove tracks : List Track) :
    ScrobbleCache.removeScan toremove tracks
      = tracks.filter (fun t => !(toremove.any (fun x => decide (x = t)))) := by
  induction tracks with
  | nil => rfl
  | cons t rest ih =>
    rw [ScrobbleCache.removeScan, List.filter_cons]
    simp only [foldl_or_decide, Bool.false_or]
    cases h : toremove.any (fun x => decide (x = t)) <;> simp [h, ih]

theorem addLoop_spec (now : Int) (cands : List Track) (a : List Track)
    (d : List Diag) :
    cands.foldl (ScrobbleCache.addStep now) (a, d)
      = (a ++ addKeep now cands, d ++ addDiags now cands) := by
  induction cands generalizing a d with
  | nil => simp [addKeep, addDiags]
  | cons t rest ih =>
    rw [List.foldl_cons, ScrobbleCache.addStep]
    cases h : ScrobbleCachePrivate.isValid now t with
    | some v => simp [addKeep, addDiags, List.filter_cons, List.filterMap_cons, h, ih]
    | none =>
      by_cases hn : t.isNull <;>
        simp [addKeep, addDiags, List.filter_cons, List.filterMap_cons, h, hn, ih]

theorem filter_all_true {p : Track → Bool} {l : List Track}
    (h : ∀ a ∈ l, p a = true) : l.filter p = l :=
  List.filter_eq_self.mpr h

theorem cacheState_eta (c : CacheState) :
    CacheState.mk c.m_username c.m_path c.m_tracks = c := rfl

theorem removeScan_no_match (toremove tracks : List Track)
    (h : ∀ x ∈ toremove, ∀ t ∈ tracks, ¬(x = t)) :
    ScrobbleCache.removeScan toremove tracks = tracks := by
  rw [removeScan_eq_filter]
  apply filter_all_true
  intro a ha
  simp only [Bool.not_eq_true', List.any_eq_false, decide_eq_false_iff_not,
    decide_eq_true_eq]
  intro x hx
  exact h x hx a ha

/-! Claim theorems. -/

/-- C1: for every cache state and every target list, `remove` returns the
number of tracks remaining in the store after the removal — equal to
`tracks().size()` afterwards — not the number of tracks removed; in the
concrete 3-track cache with one matching target the return value is 2, while
only 1 track was removed. -/
theorem C1_remove_returns_remaining_count (appName : String) (c : CacheState)
    (toremove : List Track) :
    (ScrobbleCache.remove appName c toremove).ret
        = (ScrobbleCache.tracks
            (ScrobbleCache.remove appName c toremove).state).length
      ∧ (ScrobbleCache.remove "app"
            (CacheState.mk "alice" "p" [trackA, trackB, trackC]) [trackB]).ret
          = 2 := by
  exact ⟨rfl, by decide⟩

/-- C2: `remove` removes each stored track at most once: the scan is
equivalent to filtering out the stored tracks that are value-equal to some
target, and a target list containing the same track twice removes exactly as
much as a target list containing it once. -/
theorem C2_remove_at_most_once (appName : String) (c : CacheState)
    (toremove : List Track) (t : Track) :
    (ScrobbleCache.remove appName c toremove).state.m_tracks
        = c.m_tracks.filter
            (fun s => !(toremove.any (fun x => decide (x = s))))
      ∧ ScrobbleCache.remove appName c (t :: t :: toremove)
          = ScrobbleCache.remove appName c (t :: toremove) := by
  constructor
  · simp [ScrobbleCache.remove, removeScan_eq_filter]
  · have hscan : ScrobbleCache.removeScan (t :: t :: toremove) c.m_tracks
        = ScrobbleCache.removeScan (t :: toremove) c.m_tracks := by
      rw [removeScan_eq_filter, removeScan_eq_filter]
      apply List.filter_congr
      intro s _
      by_cases h : t = s <;> simp [List.any_cons, h]
    simp [ScrobbleCache.remove, hscan]

/-- C8: removing targets none of which is value-equal to any stored track
leaves `tracks()` unchanged and returns the unchanged count. -/
theorem C8_remove_no_match (appName : String) (c : CacheState)
    (toremove : List Track)
    (h : ∀ x ∈ toremove, ∀ t ∈ c.m_tracks, ¬(x = t)) :
    (ScrobbleCache.remove appName c toremove).state.m_tracks = c.m_tracks
      ∧ (ScrobbleCache.remove appName c toremove).ret
          = c.m_tracks.length := by
  have hscan : ScrobbleCache.removeScan toremove c.m_tracks = c.m_tracks :=
    removeScan_no_match toremove c.m_tracks h
  constructor
  · simp [ScrobbleCache.remove, hscan]
  · simp [ScrobbleCache.remove, hscan]

/-- Witness for C8: removing a track absent from a two-track cache changes
nothing and returns 2. -/
theorem C8_witness :
    (ScrobbleCache.remove "app"
        (CacheState.mk "alice" "p" [trackA, trackB]) [trackC]).state.m_tracks
        = [trackA, trackB]
      ∧ (ScrobbleCache.remove "app"
          (CacheState.mk "alice" "p" [trackA, trackB]) [trackC]).ret = 2 :=
  C8_remove_no_match "app" (CacheState.mk "alice" "p" [trackA, trackB])
    [trackC] (by decide)

/-- C4: after a save, the persisted file at `path()` exists if and only if
the in-memory track list is non-empty: saving an empty list deletes any
existing file (whatever the file held before), and saving a non-empty list
writes a document with one track element per stored track, in order. -/
theorem C4_file_exists_iff_nonempty (appName : String) (c : CacheState)
    (fs : String → FileContent) :
    (applyFsOp fs (ScrobbleCachePrivate.write appName c) c.m_path
          = FileContent.absent
        ↔ c.m_tracks = [])
      ∧ (c.m_tracks ≠ [] →
          applyFsOp fs (ScrobbleCachePrivate.write appName c) c.m_path
            = FileContent.doc (SubmissionsDoc.mk appName "2" c.m_tracks)) := by
  by_cases h : c.m_tracks = [] <;>
    simp [ScrobbleCachePrivate.write, applyFsOp, h]

/-- Witness for C4: saving a one-track cache over a previously malformed file
yields the expected document at the cache's path. -/
theorem C4_witness :
    applyFsOp (fun _ => FileContent.malformed)
        (ScrobbleCachePrivate.write "app" (CacheState.mk "alice" "p" [trackA]))
        "p"
      = FileContent.doc (SubmissionsDoc.mk "app" "2" [trackA]) :=
  (C4_file_exists_iff_nonempty "app" (CacheState.mk "alice" "p" [trackA])
    (fun _ => FileContent.malformed)).2 (by decide)

theorem isValid_eq_specFirstFailure (now : Int) (track : Track) :
    ScrobbleCachePrivate.isValid now track = specFirstFailure now track := by
  by_cases hd : track.duration < kScrobbleMinLength
  · cases h : track.timestamp <;>
      simp [ScrobbleCachePrivate.isValid, specFirstFailure,
        specValidatorChecks, List.find?, hd, h]
  · cases h : track.timestamp with
    | none =>
      simp [ScrobbleCachePrivate.isValid, specFirstFailure,
        specValidatorChecks, List.find?, hd, h]
    | some ts =>
      by_cases h1 : ts > now
      · simp [ScrobbleCachePrivate.isValid, specFirstFailure,
          specValidatorChecks, List.find?, hd, h, h1]
      · by_cases h2 : ts < jan2003
        · simp [ScrobbleCachePrivate.isValid, specFirstFailure,
            specValidatorChecks, List.find?, hd, h, h1, h2]
        · by_cases h3 : track.artist.isNone
          · simp [ScrobbleCachePrivate.isValid, specFirstFailure,
              specValidatorChecks, List.find?, hd, h, h1, h2, h3]
          · by_cases h4 : track.title = ""
            · simp [ScrobbleCachePrivate.isValid, specFirstFailure,
                specValidatorChecks, List.find?, hd, h, h1, h2, h3, h4]
            · by_cases h5 : (qtToLower (track.artist.getD "") ∈ unknownArtists)
              · simp [ScrobbleCachePrivate.isValid, specFirstFailure,
                  specValidatorChecks, List.find?, hd, h, h1, h2, h3, h4, h5]
              · simp [ScrobbleCachePrivate.isValid, specFirstFailure,
                  specValidatorChecks, List.find?, hd, h, h1, h2, h3, h4, h5]

/-- C3: the validator reports at most one invalidity reason (it returns an
optional reason), chosen by first match in the precedence order TooShort,
NoTimestamp, FromTheFuture, FromTheDistantPast, ArtistNameMissing,
TrackNameMissing, ArtistInvalid (the equality with `specFirstFailure`); in
particular a too-short track is reported TooShort even when its timestamp is
also absent, a long-enough track without a timestamp is rejected NoTimestamp,
one dated more than one month after the current time is rejected
FromTheFuture, and one dated before 2003-01-01 (and not in the future) is
rejected FromTheDistantPast. -/
theorem C3_validator_precedence (now : Int) (track : Track) :
    ScrobbleCachePrivate.isValid now track = specFirstFailure now track
      ∧ (track.duration < kScrobbleMinLength →
          ScrobbleCachePrivate.isValid now track = some Invalidity.TooShort)
      ∧ (kScrobbleMinLength ≤ track.duration → track.timestamp = none →
          ScrobbleCachePrivate.isValid now track = some Invalidity.NoTimestamp)
      ∧ (∀ ts, kScrobbleMinLength ≤ track.duration →
          track.timestamp = some ts → now < ts →
          ScrobbleCachePrivate.isValid now track
            = some Invalidity.FromTheFuture)
      ∧ (∀ ts, kScrobbleMinLength ≤ track.duration →
          track.timestamp = some ts → ts ≤ now → ts < jan2003 →
          ScrobbleCachePrivate.isValid now track
            = some Invalidity.FromTheDistantPast) := by
  refine ⟨isValid_eq_specFirstFailure now track, ?_, ?_, ?_, ?_⟩
  · intro hd
    simp [ScrobbleCachePrivate.isValid, hd]
  · intro hd hts
    simp [ScrobbleCachePrivate.isValid, hts, not_lt.mpr hd]
  · intro ts hd hts h1
    simp [ScrobbleCachePrivate.isValid, hts, not_lt.mpr hd, h1]
  · intro ts hd hts h1 h2
    simp [ScrobbleCachePrivate.isValid, hts, not_lt.mpr hd,
      not_lt.mpr h1, h2]

/-- Witness for C3: a 5-second track with no timestamp is rejected TooShort
(not NoTimestamp), and a long-enough track dated 2002 is rejected
FromTheDistantPast. -/
theorem C3_witness :
    ScrobbleCachePrivate.isValid sampleNow
        (Track.mk (some "Dio") "Intro" 5 none false)
        = some Invalidity.TooShort
      ∧ ScrobbleCachePrivate.isValid sampleNow
          (Track.mk (some "Dio") "Old" 100 (some 1020000000) false)
          = some Invalidity.FromTheDistantPast :=
  ⟨(C3_validator_precedence sampleNow
      (Track.mk (some "Dio") "Intro" 5 none false)).2.1 (by decide),
    (C3_validator_precedence sampleNow
      (Track.mk (some "Dio") "Old" 100 (some 1020000000) false)).2.2.2.2
      1020000000 (by decide) rfl (by decide) (by decide)⟩

/-- C5: `add` appends to the stored list exactly the candidates that pass
the validator and are not null, in input order; it surfaces one diagnostic
per rejected candidate and a distinct one per null candidate, in input
order; and it performs exactly one save, of the final state, after the whole
batch (the operation is total and returns no error). -/
theorem C5_add_appends_survivors (now : Int) (appName : String)
    (c : CacheState) (cands : List Track) :
    (ScrobbleCache.add now appName c cands).state.m_tracks
        = c.m_tracks ++ addKeep now cands
      ∧ (ScrobbleCache.add now appName c cands).diags = addDiags now cands
      ∧ (ScrobbleCache.add now appName c cands).saved
          = ScrobbleCachePrivate.write appName
              (ScrobbleCache.add now appName c cands).state := by
  refine ⟨?_, ?_, rfl⟩
  · simp [ScrobbleCache.add, addLoop_spec]
  · simp [ScrobbleCache.add, addLoop_spec]

/-- C6: a save/load round trip preserves the tracks and their order: reading
the file just written for a non-empty store yields exactly the stored list,
and a fresh cache constructed for the same username after adding a non-empty
sequence of valid, non-null tracks to an empty cache returns that sequence,
in order, from `tracks()`. -/
theorem C6_round_trip (now : Int) (appName runtimeDir username : String)
    (fs0 fs1 : String → FileContent) (c : CacheState) (cands : List Track) :
    (c.m_tracks ≠ [] →
        ScrobbleCachePrivate.read
            (applyFsOp fs0 (ScrobbleCachePrivate.write appName c) c.m_path)
          = c.m_tracks)
      ∧ (username.length ≠ 0 →
          (∀ t ∈ cands, ScrobbleCachePrivate.isValid now t = none
              ∧ t.isNull = false) →
          cands ≠ [] →
          ∀ c0, ScrobbleCache.construct runtimeDir fs1 username = some c0 →
            c0.m_tracks = [] →
            ScrobbleCache.construct runtimeDir
                (applyFsOp fs1 (ScrobbleCache.add now appName c0 cands).saved)
                username
              = some (CacheState.mk username c0.m_path cands)) := by
  constructor
  · intro hne
    simp [ScrobbleCachePrivate.write, hne, applyFsOp,
      ScrobbleCachePrivate.read]
  · intro hu hvalid hne c0 hc0 hc0tracks
    have hkeep : addKeep now cands = cands := by
      apply filter_all_true
      intro t ht
      simp [(hvalid t ht).1, (hvalid t ht).2]
    have hc0eq : c0 = CacheState.mk username
        (filePath runtimeDir (username ++ "_subs_cache.xml"))
        (ScrobbleCachePrivate.read
          (fs1 (filePath runtimeDir (username ++ "_subs_cache.xml")))) := by
      simp [ScrobbleCache.construct, hu] at hc0
      exact hc0.symm
    have hpath : c0.m_path
        = filePath runtimeDir (username ++ "_subs_cache.xml") := by
      rw [hc0eq]
    have hadd : ScrobbleCache.add now appName c0 cands
        = AddResult.mk (CacheState.mk c0.m_username c0.m_path cands)
            (addDiags now cands)
            (FsOp.writeFile c0.m_path (SubmissionsDoc.mk appName "2" cands)) := by
      simp [ScrobbleCache.add, addLoop_spec, hkeep, hc0tracks,
        ScrobbleCachePrivate.write, hne]
    rw [hadd]
    simp [ScrobbleCache.construct, hu, applyFsOp, hpath,
      ScrobbleCachePrivate.read]

/-- Witness for C6: adding two valid tracks to a fresh empty cache for
"alice" and reconstructing a cache for "alice" over the written file yields
exactly those two tracks, in order. -/
theorem C6_witness :
    ScrobbleCache.construct "/data"
        (applyFsOp (fun _ => FileContent.absent)
          (ScrobbleCache.add sampleNow "app"
            (CacheState.mk "alice" "/data/alice_subs_cache.xml" [])
            [trackA, trackB]).saved)
        "alice"
      = some (CacheState.mk "alice" "/data/alice_subs_cache.xml"
          [trackA, trackB]) :=
  (C6_round_trip sampleNow "app" "/data" "alice" (fun _ => FileContent.absent)
      (fun _ => FileContent.absent) (CacheState.mk "x" "y" [trackA])
      [trackA, trackB]).2 (by decide) (by decide) (by decide)
    (CacheState.mk "alice" "/data/alice_subs_cache.xml" []) (by decide) rfl

/-- C7: if the file at the cache's path does not exist or does not parse as
a document, construction succeeds with an empty in-memory track list and no
error is surfaced to the caller. -/
theorem C7_silent_recovery_on_bad_file (runtimeDir username : String)
    (fs : String → FileContent) (hu : username.length ≠ 0)
    (hbad : fs (filePath runtimeDir (username ++ "_subs_cache.xml"))
          = FileContent.absent
        ∨ fs (filePath runtimeDir (username ++ "_subs_cache.xml"))
          = FileContent.malformed) :
    ScrobbleCache.construct runtimeDir fs username
      = some (CacheState.mk username
          (filePath runtimeDir (username ++ "_subs_cache.xml")) []) := by
  rcases hbad with h | h <;>
    simp [ScrobbleCache.construct, hu, h, ScrobbleCachePrivate.read]

/-- Witness for C7: constructing over a file system whose every file is
malformed yields an empty cache for "alice". -/
theorem C7_witness :
    ScrobbleCache.construct "/data" (fun _ => FileContent.malformed) "alice"
      = some (CacheState.mk "alice"
          (filePath "/data" ("alice" ++ "_subs_cache.xml")) []) :=
  C7_silent_recovery_on_bad_file "/data" "alice"
    (fun _ => FileContent.malformed) (by decide) (Or.inr rfl)

/-- C9: constructing with an empty username is a contract violation (the
`Q_ASSERT` fails, modelled as `none`); for every non-empty username
construction succeeds, the path is the runtime-data directory joined with
"<username>_subs_cache.xml", and the state is loaded from the file at that
path. -/
theorem C9_construct_contract (runtimeDir : String)
    (fs : String → FileContent) (username : String)
    (hu : username.length ≠ 0) :
    ScrobbleCache.construct runtimeDir fs "" = none
      ∧ ScrobbleCache.construct runtimeDir fs username
          = some (CacheState.mk username
              (filePath runtimeDir (username ++ "_subs_cache.xml"))
              (ScrobbleCachePrivate.read
                (fs (filePath runtimeDir (username ++ "_subs_cache.xml"))))) := by
  constructor
  · rfl
  · simp [ScrobbleCache.construct, hu]

/-- Witness for C9: construction fails for "" and succeeds for "alice" with
the expected path over an empty file system. -/
theorem C9_witness :
    ScrobbleCache.construct "/data" (fun _ => FileContent.absent) "" = none
      ∧ ScrobbleCache.construct "/data" (fun _ => FileContent.absent) "alice"
          = some (CacheState.mk "alice"
              (filePath "/data" ("alice" ++ "_subs_cache.xml"))
              (ScrobbleCachePrivate.read ((fun _ => FileContent.absent)
                (filePath "/data" ("alice" ++ "_subs_cache.xml"))))) :=
  C9_construct_contract "/data" (fun _ => FileContent.absent) "alice"
    (by decide)

/-- C10: `add` and `remove` save unconditionally, even when they change
nothing: `add` with an empty candidate list, `add` with only
rejected-or-null candidates, and `remove` with no matching targets each
leave `tracks()` unchanged and still emit the full save of the unchanged
state (a file rewrite when the list is non-empty, a delete when empty). -/
theorem C10_unconditional_save (now : Int) (appName : String) (c : CacheState)
    (cands toremove : List Track) :
    ((ScrobbleCache.add now appName c []).state.m_tracks = c.m_tracks
        ∧ (ScrobbleCache.add now appName c []).saved
            = ScrobbleCachePrivate.write appName c)
      ∧ ((∀ t ∈ cands, (ScrobbleCachePrivate.isValid now t).isSome = true
              ∨ t.isNull = true) →
          (ScrobbleCache.add now appName c cands).state.m_tracks = c.m_tracks
            ∧ (ScrobbleCache.add now appName c cands).saved
                = ScrobbleCachePrivate.write appName c)
      ∧ ((∀ x ∈ toremove, ∀ t ∈ c.m_tracks, ¬(x = t)) →
          (ScrobbleCache.remove appName c toremove).state.m_tracks
              = c.m_tracks
            ∧ (ScrobbleCache.remove appName c toremove).saved
                = ScrobbleCachePrivate.write appName c) := by
  refine ⟨⟨rfl, rfl⟩, ?_, ?_⟩
  · intro h
    have hkeep : addKeep now cands = [] := by
      unfold addKeep
      rw [List.filter_eq_nil_iff]
      intro t ht hpred
      simp only [Bool.and_eq_true, Bool.not_eq_true'] at hpred
      rcases h t ht with hs | hn
      · rw [Option.isNone_iff_eq_none] at hpred
        rw [hpred.1] at hs
        simp at hs
      · rw [hn] at hpred
        simp at hpred
    constructor
    · simp [ScrobbleCache.add, addLoop_spec, hkeep]
    · simp [ScrobbleCache.add, addLoop_spec, hkeep, cacheState_eta]
  · intro h
    have hscan : ScrobbleCache.removeScan toremove c.m_tracks = c.m_tracks :=
      removeScan_no_match toremove c.m_tracks h
    constructor
    · simp [ScrobbleCache.remove, hscan]
    · simp [ScrobbleCache.remove, hscan, cacheState_eta]

/-- Witness for C10: adding only a too-short track, and removing an absent
track, both leave a one-track cache unchanged and still emit the full
rewrite of the unchanged state. -/
theorem C10_witness :
    ((ScrobbleCache.add sampleNow "app" (CacheState.mk "alice" "p" [trackA])
          [trackShort]).state.m_tracks = [trackA]
        ∧ (ScrobbleCache.add sampleNow "app"
            (CacheState.mk "alice" "p" [trackA]) [trackShort]).saved
            = ScrobbleCachePrivate.write "app"
                (CacheState.mk "alice" "p" [trackA]))
      ∧ ((ScrobbleCache.remove "app" (CacheState.mk "alice" "p" [trackA])
            [trackC]).state.m_tracks = [trackA]
          ∧ (ScrobbleCache.remove "app" (CacheState.mk "alice" "p" [trackA])
              [trackC]).saved
              = ScrobbleCachePrivate.write "app"
                  (CacheState.mk "alice" "p" [trackA])) :=
  ⟨(C10_unconditional_save sampleNow "app" (CacheState.mk "alice" "p" [trackA])
      [trackShort] [trackC]).2.1 (by decide),
    (C10_unconditional_save sampleNow "app"
      (CacheState.mk "alice" "p" [trackA]) [trackShort] [trackC]).2.2
      (by decide)⟩
